import Mathlib

/-!
Verification of the oodles repository's element-addressing and batched-mutation
layer, shallowly embedded in Lean 4.

The embedding follows `src/oodles/element.py`, `src/oodles/slides.py` and
`src/oodles/sheets.py`.  Python strings are `List Char`, Python `str.find`
(returning -1 when absent) is `pyFind` returning `Option Nat`, slice equality
`s[i:i+len(pat)] == pat` is `occursAt`, and a raised `IndexError` is the `exn`
constructor of `PyExcept`.  Floats occurring in fixed RGB literals are modelled
as exact rationals.
-/

/-- Models a Python expression that either produces a value or raises. -/
inductive PyExcept (α : Type) where
  | ok (a : α)
  | exn
deriving DecidableEq

/-- Models the Python slice test `s[i : i + len(pat)] == pat`. -/
def occursAt (s pat : List Char) (i : Nat) : Bool :=
  decide ((s.drop i).take pat.length = pat)

/-- Helper for `pyFind`: scan candidate start offsets one by one. -/
def pyFindAux (s pat : List Char) : Nat → Nat → Option Nat
  | _, 0 => none
  | j, fuel + 1 => if occursAt s pat j then some j else pyFindAux s pat (j + 1) fuel

/-- Models Python `s.find(pat, start)` for a non-empty `pat`, with `none`
standing for the -1 returned when no occurrence exists. -/
def pyFind (s pat : List Char) (start : Nat) : Option Nat :=
  pyFindAux s pat start (s.length + 1 - start)

/-- Models the Python containment test `pat in s`. -/
def pyContains (s pat : List Char) : Bool :=
  (pyFind s pat 0).isSome

/-- Models the Python slice `s[a : b]`. -/
def pySlice (s : List Char) (a b : Nat) : List Char :=
  (s.drop a).take (b - a)

/-- The `"<b>"` literal of `TextBlock._fill`. -/
def tagOpenB : List Char := ['<', 'b', '>']

/-- The `"</b>"` literal of `TextBlock._fill`. -/
def tagCloseB : List Char := ['<', '/', 'b', '>']

/-- The `"<i>"` literal of `TextBlock._fill`. -/
def tagOpenI : List Char := ['<', 'i', '>']

/-- The `"</i>"` literal of `TextBlock._fill`. -/
def tagCloseI : List Char := ['<', '/', 'i', '>']

/-- The `"<a"` literal the scanner of `TextBlock._fill` matches (two
characters, no trailing space). -/
def tagOpenA : List Char := ['<', 'a']

/-- The `"<a "` literal used by the `has_formatting` test (with a space). -/
def tagOpenASpace : List Char := ['<', 'a', ' ']

/-- The `"</a>"` literal of `TextBlock._fill`. -/
def tagCloseA : List Char := ['<', '/', 'a', '>']

/-- The `"href="` literal of `TextBlock._fill`. -/
def hrefPat : List Char := ['h', 'r', 'e', 'f', '=']

/-- The `"color="` literal of `TextBlock._fill`. -/
def colorPat : List Char := ['c', 'o', 'l', 'o', 'r', '=']

/-- The `">"` literal of `TextBlock._fill`. -/
def gtPat : List Char := ['>']

/-- The mutable locals of the scanning loop of `TextBlock._fill`:
`text_parts` (joined, as `clean`), the three tag stacks, and the three
range accumulators.  Python pushes and pops at the end of its stack lists;
here the head of the list is the top of the stack.  Ranges are appended at
the end, preserving detection order. -/
structure ParseState where
  clean : List Char
  boldStartIndices : List Nat
  italicStartIndices : List Nat
  linkData : List (Nat × List Char × Option (List Char))
  boldRanges : List (Nat × Nat)
  italicRanges : List (Nat × Nat)
  linkRanges : List (Nat × Nat × List Char × Option (List Char))
deriving DecidableEq

/-- The state at loop entry: every accumulator empty. -/
def initState : ParseState := ⟨[], [], [], [], [], [], []⟩

/-- Models `max(href_end, color_end if color else href_end)` from
`TextBlock._fill`: the second operand is `color_end` only when the extracted
color string is truthy (set and non-empty). -/
def linkSearchFrom (hrefEnd : Nat) (colorInfo : Option (Nat × List Char)) : Nat :=
  match colorInfo with
  | some (colorEnd, c) => if c.isEmpty then hrefEnd else max hrefEnd colorEnd
  | none => hrefEnd

/-- The fallback of the `<a` branch of `TextBlock._fill`: treat the `<`
at `ci` as regular text and advance by one. -/
def copyCharStep (s : List Char) (ci : Nat) (st : ParseState) :
    PyExcept (Nat × ParseState) :=
  .ok (ci + 1, { st with clean := st.clean ++ [s.getD ci ' '] })

/-- Models the color-attribute extraction of the `<a` branch of
`TextBlock._fill` (element.py lines 163-175), returning `color_end` and the
extracted color string when the Python local `color` ends up set. -/
def linkColorInfo (s : List Char) (ci hrefEnd : Nat) : Option (Nat × List Char) :=
  match pyFind s colorPat ci with
  | none => none
  | some colorStart =>
    let inTag : Bool :=
      match pyFind s gtPat hrefEnd with
      | none => false
      | some g => decide (colorStart < g)
    if inTag then
      let colorQuote := s.getD (colorStart + 6) ' '
      match pyFind s [colorQuote] (colorStart + 7) with
      | none => none
      | some colorEnd => some (colorEnd, pySlice s (colorStart + 7) colorEnd)
    else none

/-- The tail of the `<a` branch of `TextBlock._fill` (element.py lines
177-199): locate the end of the opening tag and push onto `link_data`, or
degrade to literal text when no `>` follows. -/
def stepLinkTag (s : List Char) (ci : Nat) (st : ParseState) (hrefEnd : Nat)
    (url : List Char) (colorInfo : Option (Nat × List Char)) :
    PyExcept (Nat × ParseState) :=
  match pyFind s gtPat (linkSearchFrom hrefEnd colorInfo) with
  | none => copyCharStep s ci st
  | some tagEnd =>
    .ok (tagEnd + 1,
      { st with linkData :=
          (st.clean.length, url, colorInfo.map Prod.snd) :: st.linkData })

/-- The `<a` branch of `TextBlock._fill` once `href=` has been located at
`hrefStart` (element.py lines 154-195).  `exn` models the `IndexError`
Python raises at `new_text[href_start + 5]` when `href=` ends the string. -/
def stepLinkHref (s : List Char) (ci : Nat) (st : ParseState) (hrefStart : Nat) :
    PyExcept (Nat × ParseState) :=
  if hrefStart + 5 < s.length then
    match pyFind s [s.getD (hrefStart + 5) ' '] (hrefStart + 6) with
    | none => copyCharStep s ci st
    | some hrefEnd =>
      stepLinkTag s ci st hrefEnd (pySlice s (hrefStart + 6) hrefEnd)
        (linkColorInfo s ci hrefEnd)
  else .exn

/-- Models the `<a` branch of the scanning loop of `TextBlock._fill`
(element.py lines 151-199). -/
def stepLink (s : List Char) (ci : Nat) (st : ParseState) :
    PyExcept (Nat × ParseState) :=
  match pyFind s hrefPat ci with
  | none => copyCharStep s ci st
  | some hrefStart => stepLinkHref s ci st hrefStart

/-- One iteration of the `while current_index < len(new_text)` loop of
`TextBlock._fill` (element.py lines 128-210), returning the next value of
`current_index` together with the updated locals. -/
def stepOnce (s : List Char) (ci : Nat) (st : ParseState) :
    PyExcept (Nat × ParseState) :=
  if occursAt s tagOpenB ci then
    .ok (ci + 3, { st with boldStartIndices := st.clean.length :: st.boldStartIndices })
  else if occursAt s tagCloseB ci then
    .ok (ci + 4,
      match st.boldStartIndices with
      | [] => st
      | startIndex :: rest =>
        { st with boldStartIndices := rest,
                  boldRanges := st.boldRanges ++ [(startIndex, st.clean.length)] })
  else if occursAt s tagOpenI ci then
    .ok (ci + 3, { st with italicStartIndices := st.clean.length :: st.italicStartIndices })
  else if occursAt s tagCloseI ci then
    .ok (ci + 4,
      match st.italicStartIndices with
      | [] => st
      | startIndex :: rest =>
        { st with italicStartIndices := rest,
                  italicRanges := st.italicRanges ++ [(startIndex, st.clean.length)] })
  else if occursAt s tagOpenA ci then
    stepLink s ci st
  else if occursAt s tagCloseA ci then
    .ok (ci + 4,
      match st.linkData with
      | [] => st
      | (startIndex, url, color) :: rest =>
        { st with linkData := rest,
                  linkRanges := st.linkRanges ++ [(startIndex, st.clean.length, url, color)] })
  else
    .ok (ci + 1, { st with clean := st.clean ++ [s.getD ci ' '] })

/-- Fuelled form of the scanning loop; the fuel only bounds the number of
iterations and `parseLoopFuel_congr` below shows any sufficient fuel gives
the same result. -/
def parseLoopFuel (s : List Char) : Nat → Nat → ParseState → PyExcept ParseState
  | 0, _, st => .ok st
  | fuel + 1, ci, st =>
    if ci < s.length then
      match stepOnce s ci st with
      | .exn => .exn
      | .ok (ci2, st2) => parseLoopFuel s fuel ci2 st2
    else .ok st

/-- The scanning loop of `TextBlock._fill` from position `ci` in state `st`. -/
def parseLoop (s : List Char) (ci : Nat) (st : ParseState) : PyExcept ParseState :=
  parseLoopFuel s (s.length - ci) ci st

/-- The complete markup scan of `TextBlock._fill` on input `s`. -/
def parseMarkup (s : List Char) : PyExcept ParseState :=
  parseLoop s 0 initState

/-- Models `has_formatting` of `TextBlock._fill` (element.py lines 109-113).
Note the `<a ` test here carries a trailing space although the scanner
matches a bare `<a`. -/
def hasFormatting (t : List Char) : Bool :=
  (pyContains t tagOpenB && pyContains t tagCloseB) ||
  (pyContains t tagOpenI && pyContains t tagCloseI) ||
  (pyContains t tagOpenASpace && pyContains t tagCloseA)

/-- An RGB triple on the 0-1 scale; the Python float literals are modelled
as exact rationals. -/
structure RgbColor where
  red : ℚ
  green : ℚ
  blue : ℚ
deriving DecidableEq

/-- Models `color.lower()` for the ASCII color names compared against. -/
def lowerStr (s : List Char) : List Char := s.map Char.toLower

/-- The value of one hexadecimal digit, as accepted by Python `int(x, 16)`
for a plain digit character. -/
def hexDigitVal (c : Char) : Option Nat :=
  if '0' ≤ c ∧ c ≤ '9' then some (c.toNat - '0'.toNat)
  else if 'a' ≤ c ∧ c ≤ 'f' then some (c.toNat - 'a'.toNat + 10)
  else if 'A' ≤ c ∧ c ≤ 'F' then some (c.toNat - 'A'.toNat + 10)
  else none

/-- Models `int(two_hex_chars, 16)`; `none` models the `ValueError` branch.
(The laxity of Python `int` toward surrounding whitespace or a sign inside
the two-character window is abstracted away.) -/
def hexByte (hi lo : Char) : Option Nat :=
  match hexDigitVal hi, hexDigitVal lo with
  | some h, some l => some (16 * h + l)
  | _, _ => none

/-- Models the color-resolution chain of `TextBlock._fill` (element.py lines
274-305): named colors on the lowercased string first, then 7-character
`#RRGGBB` hex on the original string; anything else (including a failed hex
parse) yields no color. -/
def resolveColor (color : List Char) : Option RgbColor :=
  let c := lowerStr color
  if c = ['r', 'e', 'd'] then some ⟨1, 0, 0⟩
  else if c = ['g', 'r', 'e', 'e', 'n'] then some ⟨0, 4/5, 0⟩
  else if c = ['b', 'l', 'u', 'e'] then some ⟨0, 0, 1⟩
  else if c = ['b', 'l', 'a', 'c', 'k'] then some ⟨0, 0, 0⟩
  else if c = ['w', 'h', 'i', 't', 'e'] then some ⟨1, 1, 1⟩
  else if c = ['y', 'e', 'l', 'l', 'o', 'w'] then some ⟨1, 1, 0⟩
  else if c = ['p', 'u', 'r', 'p', 'l', 'e'] then some ⟨1/2, 0, 1/2⟩
  else if c = ['o', 'r', 'a', 'n', 'g', 'e'] then some ⟨1, 13/20, 0⟩
  else if c = ['g', 'r', 'a', 'y'] ∨ c = ['g', 'r', 'e', 'y'] then
    some ⟨1/2, 1/2, 1/2⟩
  else if color.headD ' ' = '#' ∧ color.length = 7 then
    match hexByte (color.getD 1 ' ') (color.getD 2 ' '),
          hexByte (color.getD 3 ' ') (color.getD 4 ' '),
          hexByte (color.getD 5 ' ') (color.getD 6 ' ') with
    | some r, some g, some b => some ⟨(r : ℚ) / 255, (g : ℚ) / 255, (b : ℚ) / 255⟩
    | _, _, _ => none
  else none

/-- The `style` payload of an `updateTextStyle` wire instruction: the run's
base style dict (opaque, of type `σ`), `{"bold": True}`, `{"italic": True}`,
or a link style with an optional resolved foreground color. -/
inductive TextStyleValue (σ : Type) where
  | base (style : σ)
  | boldTrue
  | italicTrue
  | link (url : List Char) (foregroundColor : Option RgbColor)
deriving DecidableEq

/-- A wire instruction emitted by `TextBlock._fill`, keeping the object id,
the optional `FIXED_RANGE` text range, the style payload and the `fields`
string of the Python request dicts. -/
inductive SlideRequest (σ : Type) where
  | deleteText (objectId : String)
  | insertText (text : List Char) (objectId : String)
  | updateTextStyle (objectId : String) (textRange : Option (Nat × Nat))
      (style : TextStyleValue σ) (fields : String)
deriving DecidableEq

/-- The `textRange` of a request: `some` exactly for the range-specific
style instructions. -/
def SlideRequest.textRange {σ : Type} : SlideRequest σ → Option (Nat × Nat)
  | .updateTextStyle _ tr _ _ => tr
  | _ => none

/-- Models one iteration of the link-request loop of `TextBlock._fill`
(element.py lines 267-327): the `fields` string gains `,foregroundColor`
exactly when a truthy color resolves to an RGB triple. -/
def linkStyleRequest {σ : Type} (objId : String)
    (r : Nat × Nat × List Char × Option (List Char)) : SlideRequest σ :=
  match r with
  | (startIndex, endIndex, url, color) =>
    match color with
    | some c =>
      if c.isEmpty then
        .updateTextStyle objId (some (startIndex, endIndex)) (.link url none) "link"
      else
        match resolveColor c with
        | some rgb =>
          .updateTextStyle objId (some (startIndex, endIndex)) (.link url (some rgb))
            "link,foregroundColor"
        | none =>
          .updateTextStyle objId (some (startIndex, endIndex)) (.link url none) "link"
    | none => .updateTextStyle objId (some (startIndex, endIndex)) (.link url none) "link"

/-- A text block handle: `obj_id`, current `text` and base `style` as in
the Python `TextBlock` constructor.  The base style dict stays opaque. -/
structure TextBlock (σ : Type) where
  obj_id : String
  text : List Char
  style : σ
deriving DecidableEq

/-- Models the request list built by the formatted branch of
`TextBlock._fill` (element.py lines 216-329): delete, insert of the clean
text, base style over the whole run, then the bold, italic and link range
instructions in detection order. -/
def fillRequests {σ : Type} (b : TextBlock σ) (st : ParseState) :
    List (SlideRequest σ) :=
  [SlideRequest.deleteText b.obj_id,
   SlideRequest.insertText st.clean b.obj_id,
   SlideRequest.updateTextStyle b.obj_id none (.base b.style) "*"] ++
  st.boldRanges.map
    (fun r => SlideRequest.updateTextStyle b.obj_id (some r) .boldTrue "bold") ++
  st.italicRanges.map
    (fun r => SlideRequest.updateTextStyle b.obj_id (some r) .italicTrue "italic") ++
  st.linkRanges.map (linkStyleRequest b.obj_id)

/-- Models `TextBlock._fill` (element.py lines 105-342): the unformatted
branch emits delete, insert of the value verbatim, and the base style; the
formatted branch scans the markup and emits `fillRequests`. -/
def TextBlock.fill {σ : Type} (b : TextBlock σ) (value : List Char) :
    PyExcept (List (SlideRequest σ)) :=
  if hasFormatting value then
    match parseMarkup value with
    | .exn => .exn
    | .ok st => .ok (fillRequests b st)
  else
    .ok [SlideRequest.deleteText b.obj_id,
         SlideRequest.insertText value b.obj_id,
         SlideRequest.updateTextStyle b.obj_id none (.base b.style) "*"]

/-- Models `TextBlock.match`: `query in self.text`. -/
def TextBlock.matchQuery {σ : Type} (b : TextBlock σ) (query : List Char) : Bool :=
  pyContains b.text query

/-- Models the Python `TextBlocks` container: the `elements` list plus the
`obj_ids` set. -/
structure TextBlocks (σ : Type) where
  elements : List (TextBlock σ)
  obj_ids : Finset String
deriving DecidableEq

/-- A freshly constructed `TextBlocks(doc_id)`: both containers empty. -/
def TextBlocks.empty {σ : Type} : TextBlocks σ := ⟨[], ∅⟩

/-- Models `TextBlocks.add` (element.py lines 19-21): append to `elements`
unconditionally and insert the id into the `obj_ids` set. -/
def TextBlocks.add {σ : Type} (tbs : TextBlocks σ) (block : TextBlock σ) :
    TextBlocks σ :=
  ⟨tbs.elements ++ [block], insert block.obj_id tbs.obj_ids⟩

/-- The loop of `Slide.find` (slides.py lines 243-249): return a collection
holding the first matching block, or `none` (Python `None`). -/
def Slide.findAux {σ : Type} (query : List Char) :
    List (TextBlock σ) → Option (TextBlocks σ)
  | [] => none
  | block :: rest =>
    if block.matchQuery query then some (TextBlocks.empty.add block)
    else Slide.findAux query rest

/-- Models `Slide.find`. -/
def Slide.find {σ : Type} (texts : List (TextBlock σ)) (query : List Char) :
    Option (TextBlocks σ) :=
  Slide.findAux query texts

/-- Models `Slide.find_all` (slides.py lines 251-256): add every matching
block, in page order, to a fresh collection. -/
def Slide.find_all {σ : Type} (texts : List (TextBlock σ)) (query : List Char) :
    TextBlocks σ :=
  texts.foldl (fun res block => if block.matchQuery query then res.add block else res)
    TextBlocks.empty

/-- The outcome of `Slides.__getitem__`: the distinguished 1-indexing
`KeyError`, an `IndexError` from list indexing, or a page. -/
inductive SlideLookup (α : Type) where
  | keyErrorOneIndexed
  | indexError
  | ok (a : α)
deriving DecidableEq

/-- The effective offset of Python list indexing: negative indices have the
length added once. -/
def pyIndex (i : Int) (n : Nat) : Int :=
  if i < 0 then i + n else i

/-- Models Python list indexing `l[i]` with an `int` index: negative indices
count from the end, and out-of-range indices raise `IndexError`. -/
def pyListGet {α : Type} (l : List α) (i : Int) : SlideLookup α :=
  if h : 0 ≤ pyIndex i l.length ∧ pyIndex i l.length < l.length then
    .ok (l.get ⟨(pyIndex i l.length).toNat, by omega⟩)
  else .indexError

/-- Models `Slides.__getitem__` (slides.py lines 46-50): page 0 raises the
1-indexing `KeyError`, everything else indexes `self.pages[page - 1]`. -/
def Slides.getItem {α : Type} (pages : List α) (page : Int) : SlideLookup α :=
  if page = 0 then .keyErrorOneIndexed
  else pyListGet pages (page - 1)

/-- The attachment status of a slide handle and its sub-handles: `true`
models `_batch_requests` pointing at the shared list, `false` models `None`. -/
structure BatchHandles where
  slideAttached : Bool
  imgAttached : List Bool
  textAttached : List Bool
deriving DecidableEq

/-- The net effect of the detach statements of `BatchUpdate.__exit__`:
`slide._batch_requests = None` propagates through `Slide.__setattr__` to the
images and text blocks, and the images are then set to `None` again
explicitly. -/
def detachAll (h : BatchHandles) : BatchHandles :=
  ⟨false, h.imgAttached.map (fun _ => false), h.textAttached.map (fun _ => false)⟩

/-- The observable outcome of `BatchUpdate.__exit__`: a normal return with
the number of network calls made, or a propagated exception; both carry the
final attachment state. -/
inductive ExitOutcome where
  | ok (networkCalls : Nat) (state : BatchHandles)
  | raised (state : BatchHandles)
deriving DecidableEq

/-- Models `BatchUpdate.__exit__` (slides.py lines 190-199): dispatch one
combined call when `self.requests` is non-empty (`dispatchFails` models the
outcome of that `execute()`), then run the detach statements.  There is no
`try/finally`, so a raising dispatch propagates before any detach runs. -/
def BatchUpdate.exit {ρ : Type} (requests : List ρ) (dispatchFails : Bool)
    (h : BatchHandles) : ExitOutcome :=
  if requests.isEmpty then .ok 0 (detachAll h)
  else if dispatchFails then .raised h
  else .ok 1 (detachAll h)

/-- A pandas timestamp, to second precision (what `strftime` prints). -/
structure Timestamp where
  year : Nat
  month : Nat
  day : Nat
  hour : Nat
  minute : Nat
  second : Nat
deriving DecidableEq

/-- Zero-pad a number to two digits, as `strftime` does for `%m %d %H %M %S`. -/
def pad2 (n : Nat) : String :=
  if n < 10 then "0" ++ toString n else toString n

/-- Models `x.strftime("%Y-%m-%d %H:%M:%S")`.  The year is printed plainly:
pandas `datetime64[ns]` years always have four digits. -/
def strftimeDT (t : Timestamp) : String :=
  toString t.year ++ "-" ++ pad2 t.month ++ "-" ++ pad2 t.day ++ " " ++
    pad2 t.hour ++ ":" ++ pad2 t.minute ++ ":" ++ pad2 t.second

/-- One dataframe column: its header and its cells, which are either opaque
values of type `α` or timestamps (the `datetime64[ns]` dtype case). -/
inductive DfColumn (α : Type) where
  | plain (header : String) (cells : List α)
  | datetime (header : String) (cells : List Timestamp)
deriving DecidableEq

/-- The number of rows of a column. -/
def DfColumn.size {α : Type} : DfColumn α → Nat
  | .plain _ cells => cells.length
  | .datetime _ cells => cells.length

/-- The column's header. -/
def DfColumn.header {α : Type} : DfColumn α → String
  | .plain h _ => h
  | .datetime h _ => h

/-- Models `df.shape[0]` for a dataframe given as its column list (pandas
keeps all columns the same length). -/
def dfRows {α : Type} (df : List (DfColumn α)) : Nat :=
  (df.head?.map DfColumn.size).getD 0

/-- One cell of an `append` request entry: a string (header or serialized
timestamp) or an opaque value copied from the dataframe. -/
inductive SheetCell (α : Type) where
  | str (s : String)
  | val (a : α)
deriving DecidableEq

/-- The serialized cells of one column, headers excluded. -/
def DfColumn.bodyCells {α : Type} : DfColumn α → List (SheetCell α)
  | .plain _ cells => cells.map SheetCell.val
  | .datetime _ cells => cells.map (fun t => SheetCell.str (strftimeDT t))

/-- Models one entry of the column-major `values` list built by
`Sheet.__setattr__` for `value` (sheets.py lines 150-159): the header
followed by the column's values, timestamps serialized by `strftime`. -/
def serializeColumn {α : Type} : DfColumn α → List (SheetCell α)
  | .plain h cells => SheetCell.str h :: cells.map SheetCell.val
  | .datetime h cells =>
    SheetCell.str h :: cells.map (fun t => SheetCell.str (strftimeDT t))

/-- A wire call issued by the sheet-writing path: `addSheet` (one
batchUpdate), the `updateCells` clear (one batchUpdate), or the
`values().append` call. -/
inductive SheetsCall (α : Type) where
  | addSheet (title : String) (rowCount : Nat) (columnCount : Nat) (tabColor : RgbColor)
  | clearCells (sheetId : Nat)
  | appendValues (range : String) (majorDimension : String)
      (values : List (List (SheetCell α)))
deriving DecidableEq

/-- Models `Sheets.__setitem__` (sheets.py lines 74-99) together with
`Sheet.clear` and `Sheet.__setattr__` for `value`, as the ordered list of
wire calls it issues.  `sheetExists` tells whether the name lookup raised
`NameError`; when it did, the sheet is created first with the requested
dimensions floored at 1000 rows and 26 columns. -/
def Sheets.setItem {α : Type} (sheetExists : Bool) (sheetId : Nat) (name : String)
    (df : List (DfColumn α)) : List (SheetsCall α) :=
  let pre : List (SheetsCall α) :=
    if sheetExists then []
    else
      [SheetsCall.addSheet name (max (dfRows df) 1000) (max df.length 26)
        ⟨1, 3/10, 2/5⟩]
  pre ++ [SheetsCall.clearCells sheetId,
          SheetsCall.appendValues (name ++ "!A:A") "COLUMNS" (df.map serializeColumn)]

theorem pyFindAux_ge {s pat : List Char} :
    ∀ {fuel j r : Nat}, pyFindAux s pat j fuel = some r → j ≤ r := by
  intro fuel
  induction fuel with
  | zero => intro j r h; simp [pyFindAux] at h
  | succ n ih =>
    intro j r h
    unfold pyFindAux at h
    split at h
    · cases h; exact Nat.le_refl _
    · exact Nat.le_of_succ_le (ih h)

theorem pyFind_ge {s pat : List Char} {start r : Nat}
    (h : pyFind s pat start = some r) : start ≤ r :=
  pyFindAux_ge h

theorem le_linkSearchFrom (hrefEnd : Nat) (o : Option (Nat × List Char)) :
    hrefEnd ≤ linkSearchFrom hrefEnd o := by
  rcases o with _ | ⟨colorEnd, c⟩
  · exact Nat.le_refl _
  · show hrefEnd ≤ if c.isEmpty then hrefEnd else max hrefEnd colorEnd
    split
    · exact Nat.le_refl _
    · exact Nat.le_max_left _ _

theorem copyCharStep_advance {s : List Char} {ci : Nat} {st : ParseState}
    {ci2 : Nat} {st2 : ParseState}
    (h : copyCharStep s ci st = .ok (ci2, st2)) : ci < ci2 := by
  unfold copyCharStep at h
  cases h
  omega

theorem stepLinkTag_advance {s : List Char} {ci : Nat} {st : ParseState}
    {hrefEnd : Nat} {url : List Char} {colorInfo : Option (Nat × List Char)}
    {ci2 : Nat} {st2 : ParseState} (hge : ci ≤ hrefEnd)
    (h : stepLinkTag s ci st hrefEnd url colorInfo = .ok (ci2, st2)) : ci < ci2 := by
  unfold stepLinkTag at h
  split at h
  · exact copyCharStep_advance h
  · rename_i tagEnd hfind
    cases h
    have h3 := Nat.le_trans (le_linkSearchFrom hrefEnd _) (pyFind_ge hfind)
    omega

theorem stepLinkHref_advance {s : List Char} {ci : Nat} {st : ParseState}
    {hrefStart : Nat} {ci2 : Nat} {st2 : ParseState} (hge : ci ≤ hrefStart)
    (h : stepLinkHref s ci st hrefStart = .ok (ci2, st2)) : ci < ci2 := by
  unfold stepLinkHref at h
  split at h
  · split at h
    · exact copyCharStep_advance h
    · rename_i hrefEnd hfind2
      exact stepLinkTag_advance (by have := pyFind_ge hfind2; omega) h
  · cases h

theorem stepLink_advance {s : List Char} {ci : Nat} {st : ParseState}
    {ci2 : Nat} {st2 : ParseState}
    (h : stepLink s ci st = .ok (ci2, st2)) : ci < ci2 := by
  unfold stepLink at h
  split at h
  · exact copyCharStep_advance h
  · rename_i hrefStart hfind1
    exact stepLinkHref_advance (pyFind_ge hfind1) h

theorem stepOnce_advance {s : List Char} {ci : Nat} {st : ParseState}
    {ci2 : Nat} {st2 : ParseState}
    (h : stepOnce s ci st = .ok (ci2, st2)) : ci < ci2 := by
  unfold stepOnce at h
  split at h
  · cases h; omega
  · split at h
    · cases h; omega
    · split at h
      · cases h; omega
      · split at h
        · cases h; omega
        · split at h
          · exact stepLink_advance h
          · split at h
            · cases h; omega
            · cases h; omega

theorem parseLoopFuel_congr {s : List Char} :
    ∀ {f1 f2 ci : Nat} {st : ParseState}, s.length - ci ≤ f1 →
      s.length - ci ≤ f2 → parseLoopFuel s f1 ci st = parseLoopFuel s f2 ci st := by
  intro f1
  induction f1 with
  | zero =>
    intro f2 ci st h1 h2
    have hci : ¬ ci < s.length := by omega
    cases f2 with
    | zero => rfl
    | succ g => simp [parseLoopFuel, hci]
  | succ f ih =>
    intro f2 ci st h1 h2
    cases f2 with
    | zero =>
      have hci : ¬ ci < s.length := by omega
      simp [parseLoopFuel, hci]
    | succ g =>
      by_cases hci : ci < s.length
      · simp only [parseLoopFuel, if_pos hci]
        cases hstep : stepOnce s ci st with
        | exn => rfl
        | ok p =>
          rcases p with ⟨ci2, st2⟩
          have hadv : ci < ci2 := stepOnce_advance hstep
          exact ih (by omega) (by omega)
      · simp [parseLoopFuel, hci]

theorem parseLoop_step {s : List Char} {ci : Nat} {st : ParseState}
    {ci2 : Nat} {st2 : ParseState} (hci : ci < s.length)
    (hstep : stepOnce s ci st = .ok (ci2, st2)) :
    parseLoop s ci st = parseLoop s ci2 st2 := by
  have hadv : ci < ci2 := stepOnce_advance hstep
  obtain ⟨k, hk⟩ : ∃ k, s.length - ci = k + 1 := ⟨s.length - ci - 1, by omega⟩
  unfold parseLoop
  rw [hk]
  simp only [parseLoopFuel, if_pos hci, hstep]
  exact parseLoopFuel_congr (by omega) (by omega)

set_option maxRecDepth 8000

theorem occursAt_lt_length {s pat : List Char} {ci : Nat}
    (h : occursAt s pat ci = true) (hne : pat ≠ []) : ci < s.length := by
  simp only [occursAt, decide_eq_true_eq] at h
  by_contra hge
  push_neg at hge
  rw [List.drop_eq_nil_of_le hge] at h
  simp at h
  simp_all

theorem occursAt_openI_excl {s : List Char} {ci : Nat}
    (h : occursAt s tagOpenI ci = true) :
    occursAt s tagOpenB ci = false ∧ occursAt s tagCloseB ci = false := by
  have h' : (s.drop ci).take 3 = tagOpenI := by
    simpa [occursAt, tagOpenI] using h
  constructor
  · simp only [occursAt, decide_eq_false_iff_not]
    intro a
    have a3 : (s.drop ci).take 3 = ['<', 'b', '>'] := by simpa [tagOpenB] using a
    rw [h'] at a3
    exact absurd a3 (by decide)
  · simp only [occursAt, decide_eq_false_iff_not]
    intro a
    have a4 : (s.drop ci).take 4 = ['<', '/', 'b', '>'] := by
      simpa [tagCloseB] using a
    have e : (s.drop ci).take 3 = (['<', '/', 'b', '>'] : List Char).take 3 := by
      rw [← a4, List.take_take]
      congr 1
    rw [h'] at e
    exact absurd e (by decide)

theorem stepOnce_openB {s : List Char} {ci : Nat} (st : ParseState)
    (h : occursAt s tagOpenB ci = true) :
    stepOnce s ci st =
      .ok (ci + 3, { st with boldStartIndices := st.clean.length :: st.boldStartIndices }) := by
  simp [stepOnce, h]

theorem stepOnce_openI {s : List Char} {ci : Nat} (st : ParseState)
    (h : occursAt s tagOpenI ci = true) :
    stepOnce s ci st =
      .ok (ci + 3, { st with italicStartIndices := st.clean.length :: st.italicStartIndices }) := by
  obtain ⟨hb, hcb⟩ := occursAt_openI_excl h
  simp [stepOnce, h, hb, hcb]

/-- C1: for the input string `"Test <b>bold</b> and <i>italic</i> text"`,
the markup scan of `TextBlock._fill` produces the clean text
`"Test bold and italic text"`, exactly one bold range `(5, 9)` and exactly
one italic range `(14, 20)`, offsets taken in the stripped text (all tag
stacks end empty and no link range is produced). -/
theorem claim_C1 :
    parseMarkup ("Test <b>bold</b> and <i>italic</i> text".toList) =
      .ok ⟨"Test bold and italic text".toList, [], [], [], [(5, 9)], [(14, 20)], []⟩ := by
  decide

/-- C8: whenever the scanner of `TextBlock._fill` stands on an occurrence of
`<b>` (or `<i>`), that step pushes the current clean-text length onto the
bold (resp. italic) start-index stack, advances past the tag, and leaves the
accumulated clean text unchanged — the tag is consumed, never copied.  This
holds for every input string, position and state, hence also for
unterminated or unmatched tags. -/
theorem claim_C8 (s : List Char) (ci : Nat) (st : ParseState) :
    (occursAt s tagOpenB ci = true →
      stepOnce s ci st =
        .ok (ci + 3, { st with boldStartIndices := st.clean.length :: st.boldStartIndices }) ∧
      parseLoop s ci st =
        parseLoop s (ci + 3) { st with boldStartIndices := st.clean.length :: st.boldStartIndices }) ∧
    (occursAt s tagOpenI ci = true →
      stepOnce s ci st =
        .ok (ci + 3, { st with italicStartIndices := st.clean.length :: st.italicStartIndices }) ∧
      parseLoop s ci st =
        parseLoop s (ci + 3) { st with italicStartIndices := st.clean.length :: st.italicStartIndices }) := by
  constructor
  · intro h
    have hci : ci < s.length := occursAt_lt_length h (by decide)
    have hs := stepOnce_openB st h
    exact ⟨hs, parseLoop_step hci hs⟩
  · intro h
    have hci : ci < s.length := occursAt_lt_length h (by decide)
    have hs := stepOnce_openI st h
    exact ⟨hs, parseLoop_step hci hs⟩

theorem claim_C8_witness :
    occursAt ['<', 'b', '>'] tagOpenB 0 = true ∧
    parseLoop ['<', 'b', '>'] 0 initState =
      parseLoop ['<', 'b', '>'] 3 { initState with boldStartIndices := [0] } ∧
    occursAt ['<', 'i', '>', 'x'] tagOpenI 0 = true ∧
    parseLoop ['<', 'i', '>', 'x'] 0 initState =
      parseLoop ['<', 'i', '>', 'x'] 3 { initState with italicStartIndices := [0] } :=
  ⟨by decide, ((claim_C8 ['<', 'b', '>'] 0 initState).1 (by decide)).2,
   by decide, ((claim_C8 ['<', 'i', '>', 'x'] 0 initState).2 (by decide)).2⟩

/-- C2: whenever `TextBlock._fill` is given a value containing recognized
formatting tags and the scan completes, the emitted wire-instruction list is
exactly: one delete, one insert of the clean text, one base-style
instruction over the whole run (`fields` `*`, no range), then one style
instruction per bold range in detection order, then one per italic range in
detection order, then one per link range in detection order, the link
instructions resolving their color via `linkStyleRequest`. -/
theorem claim_C2 {σ : Type} (b : TextBlock σ) (value : List Char) (st : ParseState)
    (h1 : hasFormatting value = true) (h2 : parseMarkup value = .ok st) :
    TextBlock.fill b value =
      .ok ([SlideRequest.deleteText b.obj_id,
            SlideRequest.insertText st.clean b.obj_id,
            SlideRequest.updateTextStyle b.obj_id none (.base b.style) "*"] ++
        st.boldRanges.map
          (fun r => SlideRequest.updateTextStyle b.obj_id (some r) .boldTrue "bold") ++
        st.italicRanges.map
          (fun r => SlideRequest.updateTextStyle b.obj_id (some r) .italicTrue "italic") ++
        st.linkRanges.map (linkStyleRequest b.obj_id)) := by
  simp [TextBlock.fill, h1, h2, fillRequests]

theorem claim_C2_witness :
    hasFormatting ("<b>x</b><a href='u' color='red'>L</a>".toList) = true ∧
    parseMarkup ("<b>x</b><a href='u' color='red'>L</a>".toList) =
      .ok ⟨['x', 'L'], [], [], [], [(0, 1)], [], [(1, 2, ['u'], some ['r', 'e', 'd'])]⟩ ∧
    TextBlock.fill (⟨"id1", [], ()⟩ : TextBlock Unit)
        ("<b>x</b><a href='u' color='red'>L</a>".toList) =
      .ok ([SlideRequest.deleteText "id1",
            SlideRequest.insertText ['x', 'L'] "id1",
            SlideRequest.updateTextStyle "id1" none (.base ()) "*"] ++
        ([(0, 1)] : List (Nat × Nat)).map
          (fun r => SlideRequest.updateTextStyle "id1" (some r) .boldTrue "bold") ++
        ([] : List (Nat × Nat)).map
          (fun r => SlideRequest.updateTextStyle "id1" (some r) .italicTrue "italic") ++
        ([(1, 2, ['u'], some ['r', 'e', 'd'])] :
            List (Nat × Nat × List Char × Option (List Char))).map
          (linkStyleRequest "id1")) :=
  ⟨by decide, by decide,
   claim_C2 ⟨"id1", [], ()⟩ ("<b>x</b><a href='u' color='red'>L</a>".toList)
     ⟨['x', 'L'], [], [], [], [(0, 1)], [], [(1, 2, ['u'], some ['r', 'e', 'd'])]⟩
     (by decide) (by decide)⟩

/-- C3: a fill whose value contains no recognized formatting tags emits
exactly three instructions, in order: delete the element's content, insert
the new content verbatim, and apply the base style object to the whole run;
none of them carries a text range. -/
theorem claim_C3 {σ : Type} (b : TextBlock σ) (value : List Char)
    (h : hasFormatting value = false) :
    ∃ l, TextBlock.fill b value = .ok l ∧
      l = [SlideRequest.deleteText b.obj_id,
           SlideRequest.insertText value b.obj_id,
           SlideRequest.updateTextStyle b.obj_id none (.base b.style) "*"] ∧
      l.length = 3 ∧ ∀ r ∈ l, r.textRange = none := by
  have hfill : TextBlock.fill b value =
      .ok [SlideRequest.deleteText b.obj_id,
           SlideRequest.insertText value b.obj_id,
           SlideRequest.updateTextStyle b.obj_id none (.base b.style) "*"] := by
    simp [TextBlock.fill, h]
  refine ⟨_, hfill, rfl, rfl, ?_⟩
  intro r hr
  simp only [List.mem_cons, List.not_mem_nil, or_false] at hr
  rcases hr with h1 | h1 | h1 <;> subst h1 <;> rfl

theorem claim_C3_witness :
    hasFormatting ("plain text".toList) = false ∧
    ∃ l, TextBlock.fill (⟨"id2", [], ()⟩ : TextBlock Unit) ("plain text".toList) = .ok l ∧
      l = [SlideRequest.deleteText "id2",
           SlideRequest.insertText ("plain text".toList) "id2",
           SlideRequest.updateTextStyle "id2" none (.base ()) "*"] ∧
      l.length = 3 ∧ ∀ r ∈ l, r.textRange = none :=
  ⟨by decide, claim_C3 ⟨"id2", [], ()⟩ ("plain text".toList) (by decide)⟩

theorem find_all_foldl_elements {σ : Type} (q : List Char) :
    ∀ (l : List (TextBlock σ)) (acc : TextBlocks σ),
      (l.foldl (fun res block => if block.matchQuery q then res.add block else res)
          acc).elements =
        acc.elements ++ l.filter (fun b => b.matchQuery q) := by
  intro l
  induction l with
  | nil => intro acc; simp
  | cons b tl ih =>
    intro acc
    simp only [List.foldl_cons, List.filter_cons]
    by_cases hb : b.matchQuery q = true
    · rw [if_pos hb, if_pos hb, ih]
      simp [TextBlocks.add]
    · rw [if_neg hb, if_neg hb, ih]

theorem findAux_map_elements {σ : Type} (q : List Char) :
    ∀ l : List (TextBlock σ),
      (Slide.findAux q l).map TextBlocks.elements =
        (l.find? (fun b => b.matchQuery q)).map (fun b => [b]) := by
  intro l
  induction l with
  | nil => rfl
  | cons b tl ih =>
    by_cases hb : b.matchQuery q = true
    · simp [Slide.findAux, hb, List.find?_cons, TextBlocks.add, TextBlocks.empty]
    · simp [Slide.findAux, hb, List.find?_cons, ih]

/-- C5: `find` returns a collection holding exactly the first text run, in
page order, whose content contains the query as a substring; `find_all`
returns all such runs in page order; when no run matches, `find` returns the
absent value and `find_all` an empty collection (both are total functions,
so neither raises). -/
theorem claim_C5 {σ : Type} (texts : List (TextBlock σ)) (query : List Char) :
    (Slide.find texts query).map TextBlocks.elements =
      (texts.find? (fun b => b.matchQuery query)).map (fun b => [b]) ∧
    (Slide.find_all texts query).elements =
      texts.filter (fun b => b.matchQuery query) ∧
    ((∀ b ∈ texts, b.matchQuery query = false) →
      Slide.find texts query = none ∧ (Slide.find_all texts query).elements = []) := by
  refine ⟨findAux_map_elements query texts, find_all_foldl_elements query texts _, ?_⟩
  intro hnone
  constructor
  · have h1 := findAux_map_elements query texts
    rw [List.find?_eq_none.mpr (fun x hx => by simp [hnone x hx])] at h1
    show Slide.findAux query texts = none
    cases hf : Slide.findAux query texts with
    | none => rfl
    | some tb => rw [hf] at h1; simp at h1
  · show (texts.foldl
        (fun res block => if block.matchQuery query then res.add block else res)
        TextBlocks.empty).elements = []
    rw [find_all_foldl_elements]
    simp only [TextBlocks.empty, List.nil_append]
    exact List.filter_eq_nil_iff.mpr (fun a ha => by simp [hnone a ha])

theorem claim_C5_witness :
    (∀ b ∈ [(⟨"a", "hello".toList, ()⟩ : TextBlock Unit), ⟨"b", "world".toList, ()⟩],
      b.matchQuery ("zz".toList) = false) ∧
    Slide.find [(⟨"a", "hello".toList, ()⟩ : TextBlock Unit), ⟨"b", "world".toList, ()⟩]
      ("zz".toList) = none ∧
    (Slide.find_all [(⟨"a", "hello".toList, ()⟩ : TextBlock Unit), ⟨"b", "world".toList, ()⟩]
      ("zz".toList)).elements = [] :=
  ⟨by decide,
   ((claim_C5 [⟨"a", "hello".toList, ()⟩, ⟨"b", "world".toList, ()⟩]
      ("zz".toList)).2.2 (by decide)).1,
   ((claim_C5 [⟨"a", "hello".toList, ()⟩, ⟨"b", "world".toList, ()⟩]
      ("zz".toList)).2.2 (by decide)).2⟩

/-- C6 counterexample: adding a run whose `object_id` is already present is
not a no-op — `TextBlocks.add` appends to `elements` unconditionally, so the
collection grows from one entry to two entries sharing the id `"x"`. -/
theorem claim_C6_counterexample :
    (TextBlocks.empty.add (⟨"x", ['t'], ()⟩ : TextBlock Unit)).elements.length = 1 ∧
    (⟨"x", ['t'], ()⟩ : TextBlock Unit).obj_id ∈
      (TextBlocks.empty.add (⟨"x", ['t'], ()⟩ : TextBlock Unit)).obj_ids ∧
    ((TextBlocks.empty.add (⟨"x", ['t'], ()⟩ : TextBlock Unit)).add
        (⟨"x", ['t'], ()⟩ : TextBlock Unit)).elements.length = 2 ∧
    ¬ (((TextBlocks.empty.add (⟨"x", ['t'], ()⟩ : TextBlock Unit)).add
          (⟨"x", ['t'], ()⟩ : TextBlock Unit)).elements.map TextBlock.obj_id).Nodup := by
  refine ⟨rfl, ?_, rfl, by decide⟩
  simp [TextBlocks.add, TextBlocks.empty]

/-- C6 (amended): adding a run whose `object_id` is already present leaves
the `obj_ids` set (and its size) unchanged — set semantics hold for the id
set — but the run is still appended to `elements`, whose length grows by
one, so the no-duplicate invariant holds for `obj_ids` only, not for the
`elements` sequence. -/
theorem claim_C6 {σ : Type} (tbs : TextBlocks σ) (block : TextBlock σ)
    (h : block.obj_id ∈ tbs.obj_ids) :
    (tbs.add block).obj_ids = tbs.obj_ids ∧
    (tbs.add block).obj_ids.card = tbs.obj_ids.card ∧
    (tbs.add block).elements = tbs.elements ++ [block] ∧
    (tbs.add block).elements.length = tbs.elements.length + 1 := by
  refine ⟨Finset.insert_eq_self.mpr h, ?_, rfl, by simp [TextBlocks.add]⟩
  show (insert block.obj_id tbs.obj_ids).card = tbs.obj_ids.card
  rw [Finset.insert_eq_self.mpr h]

theorem claim_C6_witness :
    (⟨"x", ['t'], ()⟩ : TextBlock Unit).obj_id ∈
      (TextBlocks.empty.add (⟨"x", ['t'], ()⟩ : TextBlock Unit)).obj_ids ∧
    (((TextBlocks.empty.add (⟨"x", ['t'], ()⟩ : TextBlock Unit)).add
        (⟨"x", ['t'], ()⟩ : TextBlock Unit)).obj_ids =
      (TextBlocks.empty.add (⟨"x", ['t'], ()⟩ : TextBlock Unit)).obj_ids ∧
    ((TextBlocks.empty.add (⟨"x", ['t'], ()⟩ : TextBlock Unit)).add
        (⟨"x", ['t'], ()⟩ : TextBlock Unit)).obj_ids.card =
      (TextBlocks.empty.add (⟨"x", ['t'], ()⟩ : TextBlock Unit)).obj_ids.card ∧
    ((TextBlocks.empty.add (⟨"x", ['t'], ()⟩ : TextBlock Unit)).add
        (⟨"x", ['t'], ()⟩ : TextBlock Unit)).elements =
      (TextBlocks.empty.add (⟨"x", ['t'], ()⟩ : TextBlock Unit)).elements ++
        [⟨"x", ['t'], ()⟩] ∧
    ((TextBlocks.empty.add (⟨"x", ['t'], ()⟩ : TextBlock Unit)).add
        (⟨"x", ['t'], ()⟩ : TextBlock Unit)).elements.length =
      (TextBlocks.empty.add (⟨"x", ['t'], ()⟩ : TextBlock Unit)).elements.length + 1) := by
  have hmem : (⟨"x", ['t'], ()⟩ : TextBlock Unit).obj_id ∈
      (TextBlocks.empty.add (⟨"x", ['t'], ()⟩ : TextBlock Unit)).obj_ids := by
    simp [TextBlocks.add, TextBlocks.empty]
  exact ⟨hmem, claim_C6 (TextBlocks.empty.add ⟨"x", ['t'], ()⟩) ⟨"x", ['t'], ()⟩ hmem⟩

theorem pyListGet_eq_ok {α : Type} {l : List α} {i : Int} {x : α}
    (hx : l[(pyIndex i l.length).toNat]? = some x)
    (h0 : 0 ≤ pyIndex i l.length) : pyListGet l i = .ok x := by
  rcases List.getElem?_eq_some_iff.mp hx with ⟨hlt, hget⟩
  rw [pyListGet, dif_pos ⟨h0, by omega⟩]
  exact congrArg SlideLookup.ok (by rw [List.get_eq_getElem]; exact hget)

/-- C7: requesting page 0 from a loaded presentation fails with the
distinguished 1-indexing `KeyError` — not an `IndexError` — while pages
1..N resolve to `self.pages[page - 1]`. -/
theorem claim_C7 {α : Type} (pages : List α) :
    Slides.getItem pages 0 = SlideLookup.keyErrorOneIndexed ∧
    Slides.getItem pages 0 ≠ SlideLookup.indexError ∧
    ∀ (page : Int) (x : α), 1 ≤ page → page ≤ (pages.length : Int) →
      pages[(page - 1).toNat]? = some x → Slides.getItem pages page = .ok x := by
  have h0 : Slides.getItem pages 0 = SlideLookup.keyErrorOneIndexed := rfl
  refine ⟨h0, by rw [h0]; intro h; exact SlideLookup.noConfusion h, ?_⟩
  intro page x h1 h2 hget
  rw [Slides.getItem, if_neg (by omega : page ≠ 0)]
  have hpi : pyIndex (page - 1) pages.length = page - 1 := by
    unfold pyIndex
    rw [if_neg (by omega : ¬ (page - 1 < (0 : Int)))]
  apply pyListGet_eq_ok
  · rw [hpi]; exact hget
  · rw [hpi]; omega

theorem claim_C7_witness :
    Slides.getItem [10, 20, 30] 0 = SlideLookup.keyErrorOneIndexed ∧
    Slides.getItem [10, 20, 30] 0 ≠ SlideLookup.indexError ∧
    Slides.getItem [10, 20, 30] 2 = SlideLookup.ok 20 :=
  ⟨(claim_C7 [10, 20, 30]).1, (claim_C7 [10, 20, 30]).2.1,
   (claim_C7 [10, 20, 30]).2.2 2 20 (by decide) (by decide) (by decide)⟩

/-- C10: the page-lookup precondition rejects only index 0 — a negative
page never raises the 1-indexing error but resolves through Python
negative indexing (page -1 reads offset -2, the next-to-last page when at
least two exist), and a page greater than N yields the `IndexError`, not
the precondition error. -/
theorem claim_C10 {α : Type} (pages : List α) (page : Int) :
    (page < 0 → Slides.getItem pages page ≠ SlideLookup.keyErrorOneIndexed) ∧
    ((pages.length : Int) < page → Slides.getItem pages page = SlideLookup.indexError) ∧
    (2 ≤ pages.length → ∀ x, pages[pages.length - 2]? = some x →
      Slides.getItem pages (-1) = .ok x) := by
  refine ⟨?_, ?_, ?_⟩
  · intro hneg
    rw [Slides.getItem, if_neg (by omega : page ≠ 0), pyListGet]
    split
    · intro h; exact SlideLookup.noConfusion h
    · intro h; exact SlideLookup.noConfusion h
  · intro hgt
    have hc : ¬ (0 ≤ pyIndex (page - 1) pages.length ∧
        pyIndex (page - 1) pages.length < (pages.length : Int)) := by
      unfold pyIndex
      rw [if_neg (by omega : ¬ (page - 1 < (0 : Int)))]
      omega
    rw [Slides.getItem, if_neg (by omega : page ≠ 0), pyListGet, dif_neg hc]
  · intro h2 x hget
    rw [Slides.getItem, if_neg (by decide : (-1 : Int) ≠ 0)]
    have hpi : pyIndex ((-1 : Int) - 1) pages.length = -2 + pages.length := by
      unfold pyIndex
      rw [if_pos (by omega : ((-1 : Int) - 1 < 0))]
      omega
    apply pyListGet_eq_ok
    · have hn : (pyIndex ((-1 : Int) - 1) pages.length).toNat = pages.length - 2 := by
        rw [hpi]; omega
      rw [hn]; exact hget
    · rw [hpi]; omega

theorem claim_C10_witness :
    Slides.getItem [10, 20, 30] (-1) ≠ SlideLookup.keyErrorOneIndexed ∧
    Slides.getItem [10, 20, 30] (-1) = SlideLookup.ok 20 ∧
    Slides.getItem [10, 20, 30] 5 = SlideLookup.indexError :=
  ⟨(claim_C10 [10, 20, 30] (-1)).1 (by decide),
   (claim_C10 [10, 20, 30] (-1)).2.2 (by decide) 20 (by decide),
   (claim_C10 [10, 20, 30] 5).2.1 (by decide)⟩

/-- C4 counterexample: with one accumulated instruction and a failing
dispatch, `BatchUpdate.__exit__` propagates the exception before any detach
statement runs, so the scope stays attached — refuting "detached in every
case, including when the dispatch fails". -/
theorem claim_C4_counterexample :
    BatchUpdate.exit [(0 : Nat)] true ⟨true, [true], [true]⟩ =
      ExitOutcome.raised ⟨true, [true], [true]⟩ ∧
    (⟨true, [true], [true]⟩ : BatchHandles).slideAttached = true ∧
    (detachAll ⟨true, [true], [true]⟩).slideAttached = false := by
  decide

/-- C4 (amended): on batch-scope exit, zero accumulated instructions mean
zero network calls and a detach of the target and every sub-handle; a
non-empty list is dispatched as one combined call and, when the dispatch
succeeds, the scope is likewise fully detached; but when the dispatch
raises, the exception propagates and the scope remains attached (there is
no try/finally around the dispatch). -/
theorem claim_C4 {ρ : Type} (requests : List ρ) (dispatchFails : Bool)
    (h : BatchHandles) :
    (requests = [] → BatchUpdate.exit requests dispatchFails h = .ok 0 (detachAll h)) ∧
    (requests ≠ [] → dispatchFails = false →
      BatchUpdate.exit requests dispatchFails h = .ok 1 (detachAll h)) ∧
    (requests ≠ [] → dispatchFails = true →
      BatchUpdate.exit requests dispatchFails h = .raised h) ∧
    (detachAll h).slideAttached = false ∧
    (∀ a ∈ (detachAll h).imgAttached, a = false) ∧
    (∀ a ∈ (detachAll h).textAttached, a = false) := by
  refine ⟨?_, ?_, ?_, rfl, ?_, ?_⟩
  · intro he; subst he; rfl
  · intro hne hf; subst hf
    rw [BatchUpdate.exit, if_neg (by simp [List.isEmpty_iff, hne]), if_neg (by simp)]
  · intro hne hf; subst hf
    rw [BatchUpdate.exit, if_neg (by simp [List.isEmpty_iff, hne]), if_pos rfl]
  · intro a ha
    rcases List.mem_map.mp ha with ⟨b, hb, rfl⟩
    rfl
  · intro a ha
    rcases List.mem_map.mp ha with ⟨b, hb, rfl⟩
    rfl

theorem claim_C4_witness :
    ([] : List Nat) = [] ∧
    BatchUpdate.exit ([] : List Nat) false ⟨true, [true], [true]⟩ =
      ExitOutcome.ok 0 (detachAll ⟨true, [true], [true]⟩) ∧
    ([(0 : Nat)] ≠ []) ∧
    BatchUpdate.exit [(0 : Nat)] false ⟨true, [true], [true]⟩ =
      ExitOutcome.ok 1 (detachAll ⟨true, [true], [true]⟩) ∧
    BatchUpdate.exit [(0 : Nat)] true ⟨true, [true], [true]⟩ =
      ExitOutcome.raised ⟨true, [true], [true]⟩ :=
  ⟨rfl, (claim_C4 ([] : List Nat) false ⟨true, [true], [true]⟩).1 rfl,
   by decide,
   (claim_C4 [(0 : Nat)] false ⟨true, [true], [true]⟩).2.1 (by decide) rfl,
   (claim_C4 [(0 : Nat)] true ⟨true, [true], [true]⟩).2.2.1 (by decide) rfl⟩

/-- C9: writing a dataframe to a sheet name that does not exist first
creates the sheet with the requested dimensions floored at 1000 rows and 26
columns (only ever grown above the floor, never shrunk below it), then
clears existing cell values, then appends the data column-major with
exactly one entry per column, each entry being the column header followed
by its `n` serialized values (timestamps via `strftime`). -/
theorem claim_C9 {α : Type} (sheetId : Nat) (name : String)
    (df : List (DfColumn α)) (n : Nat) (hne : df ≠ [])
    (hsz : ∀ c ∈ df, c.size = n) :
    Sheets.setItem false sheetId name df =
      [SheetsCall.addSheet name (max n 1000) (max df.length 26) ⟨1, 3/10, 2/5⟩,
       SheetsCall.clearCells sheetId,
       SheetsCall.appendValues (name ++ "!A:A") "COLUMNS" (df.map serializeColumn)] ∧
    1000 ≤ max n 1000 ∧ n ≤ max n 1000 ∧
    26 ≤ max df.length 26 ∧ df.length ≤ max df.length 26 ∧
    (df.map serializeColumn).length = df.length ∧
    (∀ e ∈ df.map serializeColumn, e.length = n + 1) ∧
    (∀ c ∈ df, serializeColumn c = SheetCell.str c.header :: c.bodyCells) := by
  have hrows : dfRows df = n := by
    cases df with
    | nil => exact absurd rfl hne
    | cons c tl => simpa [dfRows] using hsz c (by simp)
  refine ⟨?_, Nat.le_max_right _ _, Nat.le_max_left _ _,
    Nat.le_max_right _ _, Nat.le_max_left _ _, List.length_map _ _, ?_, ?_⟩
  · simp [Sheets.setItem, hrows]
  · intro e he
    rcases List.mem_map.mp he with ⟨c, hc, rfl⟩
    have hs := hsz c hc
    cases c with
    | plain hd cells => simpa [serializeColumn, DfColumn.size] using hs
    | datetime hd cells => simpa [serializeColumn, DfColumn.size] using hs
  · intro c hc
    cases c with
    | plain hd cells => rfl
    | datetime hd cells => rfl

/-- A 10-row, 4-column example table: three value columns and one
timestamp column. -/
def dfExample : List (DfColumn Nat) :=
  [DfColumn.plain "name" [0, 1, 2, 3, 4, 5, 6, 7, 8, 9],
   DfColumn.plain "data" [5, 6, 7, 8, 9, 10, 11, 12, 13, 14],
   DfColumn.plain "data2" [1, 1, 2, 3, 5, 8, 13, 21, 34, 55],
   DfColumn.datetime "when" (List.replicate 10 ⟨2024, 5, 7, 12, 30, 5⟩)]

theorem claim_C9_witness :
    dfExample ≠ [] ∧ (∀ c ∈ dfExample, c.size = 10) ∧
    Sheets.setItem false 3 "Data" dfExample =
      [SheetsCall.addSheet "Data" (max 10 1000) (max dfExample.length 26) ⟨1, 3/10, 2/5⟩,
       SheetsCall.clearCells 3,
       SheetsCall.appendValues ("Data" ++ "!A:A") "COLUMNS" (dfExample.map serializeColumn)] ∧
    (dfExample.map serializeColumn).length = 4 ∧
    ∀ e ∈ dfExample.map serializeColumn, e.length = 11 := by
  have h := claim_C9 3 "Data" dfExample 10 (by decide) (by decide)
  exact ⟨by decide, by decide, h.1, by decide, h.2.2.2.2.2.2.1⟩
